import Mathlib

/-!
Verification of the vibekit-zkp transaction-plan pipeline.

The definitions below are a shallow embedding of the TypeScript sources:

* `extractCounterTransactionData` from `clients/web/lib/counterUtils.ts`
* `extractMultisigTransactionData` from `clients/web/lib/multisigUtils.ts`
* the Sign-Transaction render guard of the `ChatbotWidget` component
* the `CounterAgent` class from `examples/counter-agent-no-wallet/src/agent.ts`
* the `useTransactionExecutor` orchestrator, whose source file is not part of
  the repository snapshot (only its caller `MultisigTrade.tsx` and the spec
  describe it); it is modelled from the spec, as flagged on each definition.

Numbers that are JavaScript `number`s are modelled as `Nat`/`Int`; strings as
`String`; `T | null` and optional fields as `Option`; thrown exceptions as
`Except String`.  External collaborators (chain reads, ABI encoding, wallet
calls) enter as explicit parameters or as outcome arguments of a transition.
-/

set_option autoImplicit false

namespace Vibekit

/-- One step of a transaction plan.  The `TxPlan` element type is declared in
`clients/web/lib/transactionUtils.ts` (absent from the snapshot); its shape is
reconstructed from the two extractor call sites, which populate exactly the
fields `to`, `data`, `value` (a string, passed through verbatim) and
`chainId` (a number). -/
structure TxStep where
  toAddr : String
  data : String
  value : String
  chainId : Int
deriving DecidableEq, Repr

/-- Ordered transaction plan, `TxPlan` in `transactionUtils.ts`. -/
abbrev TxPlan := List TxStep

/-- The `{ to, data, value }` record used for `metadata.txData` by both agent
response interfaces (all three fields are strings in the source). -/
structure RawTxData where
  toAddr : String
  data : String
  value : String
deriving DecidableEq, Repr

/-- Metadata of `CounterAgentResponse` (`counterUtils.ts`, lines 15-27).
The operation is one of `"read" | "increment" | "set"`, kept as a string. -/
structure CounterMetadata where
  operation : String
  contractAddress : String
  currentValue : String
  expectedNewValue : Option String
  newValue : Option String
  userAddress : String
  txData : Option RawTxData
deriving DecidableEq, Repr

/-- A counter agent response (`CounterAgentResponse` in `counterUtils.ts`;
the same shape is the `Task` built by `agent.ts`).  The constant tags
`role: 'agent'` and part `type: 'text'` are omitted; `parts` keeps the texts. -/
structure CounterAgentResponse where
  id : String
  state : String
  parts : List String
  metadata : Option CounterMetadata
deriving DecidableEq, Repr

/-- Preview record assembled by `extractCounterTransactionData`
(`counterUtils.ts`, lines 41-48). -/
structure CounterTxPreview where
  operation : String
  contractAddress : String
  currentValue : String
  expectedNewValue : Option String
  newValue : Option String
  userAddress : String
deriving DecidableEq, Repr

/-- Result record `{ txPreview, txPlan }` of `extractCounterTransactionData`. -/
structure CounterExtract where
  txPreview : Option CounterTxPreview
  txPlan : Option TxPlan
deriving DecidableEq, Repr

/-- Shallow embedding of `extractCounterTransactionData`
(`counterUtils.ts`, lines 30-64): with no metadata both components are null;
otherwise the preview is always built, and the plan is the one-step list with
chain id 421614 exactly when `txData` is present and the operation is
`increment` or `set`. -/
def extractCounterTransactionData (response : CounterAgentResponse) : CounterExtract :=
  match response.metadata with
  | none => { txPreview := none, txPlan := none }
  | some metadata =>
    let txPreview : CounterTxPreview :=
      { operation := metadata.operation
        contractAddress := metadata.contractAddress
        currentValue := metadata.currentValue
        expectedNewValue := metadata.expectedNewValue
        newValue := metadata.newValue
        userAddress := metadata.userAddress }
    let txPlan : Option TxPlan :=
      match metadata.txData with
      | some txData =>
        if metadata.operation = "increment" ∨ metadata.operation = "set" then
          some [{ toAddr := txData.toAddr, data := txData.data, value := txData.value,
                  chainId := 421614 }]
        else none
      | none => none
    { txPreview := some txPreview, txPlan := txPlan }

/-- Swap details record of the multisig metadata (`multisigUtils.ts`). -/
structure SwapDetails where
  fromToken : String
  toToken : String
  amount : String
  fromChain : Option String
  toChain : Option String
deriving DecidableEq, Repr

/-- Metadata of `MultisigTradeAgentResponse` (`multisigUtils.ts`, lines 15-51). -/
structure MultisigMetadata where
  operation : String
  multisigContractAddress : String
  userAddress : String
  swapDetails : Option SwapDetails
  originalSwapTx : Option RawTxData
  owners : Option (List String)
  numConfirmationsRequired : Option Nat
  txIndex : Option Nat
  isOwner : Option Bool
  checkAddress : Option String
  txData : Option RawTxData
deriving DecidableEq, Repr

/-- A multisig trade agent response (`MultisigTradeAgentResponse`). -/
structure MultisigTradeAgentResponse where
  id : String
  state : String
  parts : List String
  metadata : Option MultisigMetadata
deriving DecidableEq, Repr

/-- Preview record assembled by `extractMultisigTransactionData`
(`multisigUtils.ts`, lines 65-84). -/
structure MultisigTxPreview where
  operation : String
  multisigContractAddress : String
  userAddress : String
  swapDetails : Option SwapDetails
  originalSwapTx : Option RawTxData
  owners : Option (List String)
  numConfirmationsRequired : Option Nat
  txIndex : Option Nat
  isOwner : Option Bool
  checkAddress : Option String
deriving DecidableEq, Repr

/-- Result record `{ txPreview, txPlan }` of `extractMultisigTransactionData`. -/
structure MultisigExtract where
  txPreview : Option MultisigTxPreview
  txPlan : Option TxPlan
deriving DecidableEq, Repr

/-- The write-operation test of `extractMultisigTransactionData`
(`multisigUtils.ts`, lines 89-93). -/
def isMultisigWriteOp (op : String) : Bool :=
  op = "swap" ∨ op = "initialize" ∨ op = "submitTransaction" ∨
    op = "confirmTransaction" ∨ op = "executeTransaction"

/-- Shallow embedding of `extractMultisigTransactionData`
(`multisigUtils.ts`, lines 54-105). -/
def extractMultisigTransactionData (response : MultisigTradeAgentResponse) :
    MultisigExtract :=
  match response.metadata with
  | none => { txPreview := none, txPlan := none }
  | some metadata =>
    let txPreview : MultisigTxPreview :=
      { operation := metadata.operation
        multisigContractAddress := metadata.multisigContractAddress
        userAddress := metadata.userAddress
        swapDetails := metadata.swapDetails
        originalSwapTx := metadata.originalSwapTx
        owners := metadata.owners
        numConfirmationsRequired := metadata.numConfirmationsRequired
        txIndex := metadata.txIndex
        isOwner := metadata.isOwner
        checkAddress := metadata.checkAddress }
    let txPlan : Option TxPlan :=
      match metadata.txData with
      | some txData =>
        if isMultisigWriteOp metadata.operation then
          some [{ toAddr := txData.toAddr, data := txData.data, value := txData.value,
                  chainId := 421614 }]
        else none
      | none => none
    { txPreview := some txPreview, txPlan := txPlan }

/-- Render guard of the Sign Transaction button in the `ChatbotWidget`
message renderer: the transaction card is reached only when
`txPreview || txPlan` is truthy, and the button itself is rendered exactly
under `txPlan && txPlan.length > 0`. -/
def chatbotSignButtonShown (hasPreview : Bool) (txPlan : Option TxPlan) : Bool :=
  if hasPreview || txPlan.isSome then
    match txPlan with
    | some plan => decide (0 < plan.length)
    | none => false
  else false

/-- Decides whether a string is a wei amount denoting a non-negative integer:
either a non-empty run of decimal digits, or `0x` followed by a non-empty run
of hexadecimal digits (the two numeral forms the agents emit). -/
def isWeiNat (s : String) : Bool :=
  match s.data with
  | '0' :: 'x' :: rest => !rest.isEmpty && rest.all (fun c => c.isDigit ||
      ('a' ≤ c && c ≤ 'f') || ('A' ≤ c && c ≤ 'F'))
  | cs => !cs.isEmpty && cs.all Char.isDigit

example : isWeiNat "0x0" = true := by decide

example : isWeiNat "-1" = false := by decide

example : chatbotSignButtonShown true (some []) = false := by decide

/-- Parsed counter operation (`CounterOperation` in `agent.ts`).  The `set`
constructor keeps an optional value because the source later checks
`operation.value === undefined`. -/
inductive CounterOperation where
  | read
  | increment
  | set (value : Option Nat)
deriving DecidableEq, Repr

/-- Digit run reached by the lazy gap of the regex `/set.*?(\d+)/` from the
current position: fails at end of input or at a line terminator (`.` does not
match newlines); at the first digit it captures the maximal digit run, whose
`parseInt` value it returns. -/
def digitsAfter : List Char → Option Nat
  | [] => none
  | c :: rest =>
    if c.isDigit then
      some (((c :: rest).takeWhile Char.isDigit).foldl
        (fun acc d => 10 * acc + (d.toNat - 48)) 0)
    else if c = '\n' ∨ c = '\r' then none
    else digitsAfter rest

/-- Leftmost match of `lowerInstruction.match(/set.*?(\d+)/)`: scan for the
first occurrence of `set` followed, on the same line, by a digit, and return
the number captured by `(\d+)` there. -/
def findSetCapture : List Char → Option Nat
  | [] => none
  | c :: rest =>
    match c, rest with
    | 's', 'e' :: 't' :: tail =>
      match digitsAfter tail with
      | some n => some n
      | none => findSetCapture rest
    | _, _ => findSetCapture rest

/-- Decides whether the first char list is a leading segment of the second. -/
def leadsList : List Char → List Char → Bool
  | [], _ => true
  | _ :: _, [] => false
  | k :: ks, c :: cs => k = c && leadsList ks cs

/-- JavaScript `string.includes(kw)` on a char list: some suffix of `s`
starts with `kw`. -/
def includesList (kw : List Char) : List Char → Bool
  | [] => kw.isEmpty
  | c :: rest => leadsList kw (c :: rest) || includesList kw rest

/-- JavaScript `string.includes(kw)`. -/
def includesKw (kw : String) (s : List Char) : Bool :=
  includesList kw.data s

/-- Shallow embedding of `CounterAgent.parseInstruction` (`agent.ts`, lines
68-104) on the lower-cased instruction.  `setMatch` in the source is the
regex match array or, failing that, `match(/(\d+)/) && includes('set')`; the
latter branch yields the non-array value `true`, whose `Array.isArray` test
fails, so the captured value is `undefined` exactly when the first regex has
no match. -/
def parseInstruction (instruction : String) : Except String CounterOperation :=
  let lower := instruction.data.map Char.toLower
  let setCapture := findSetCapture lower
  let hasDigit := lower.any Char.isDigit
  let includesSet := includesKw "set" lower
  let setMatchTruthy := setCapture.isSome || (hasDigit && includesSet)
  if setMatchTruthy || includesSet then
    match setCapture with
    | some v => .ok (.set (some v))
    | none =>
      .error "Please specify a number to set the counter to, e.g., \"Set counter to 42\""
  else if includesKw "increment" lower || includesKw "increase" lower ||
      includesKw "add" lower || includesKw "bump" lower then
    .ok .increment
  else if includesKw "get" lower || includesKw "current" lower ||
      includesKw "value" lower || includesKw "read" lower ||
      includesKw "what" lower || includesKw "show" lower then
    .ok .read
  else
    .ok .read

/-- Constructor state of the `CounterAgent` class. -/
structure CounterAgent where
  rpcUrl : String
  contractAddress : String
deriving DecidableEq, Repr

/-- Embedding of `handleRead` (`agent.ts`, lines 106-138).  The outcome of
the external `readContract` call is the `readNumber` argument; its rejection
is rethrown with the `Failed to read counter value:` prefix added. -/
def handleRead (agent : CounterAgent) (readNumber : Except String Nat)
    (taskId userAddress : String) : Except String CounterAgentResponse :=
  match readNumber with
  | .error e => .error ("Failed to read counter value: " ++ e)
  | .ok currentValue =>
    .ok { id := taskId
          state := "completed"
          parts := ["The current counter value is: " ++ toString currentValue]
          metadata := some
            { operation := "read"
              contractAddress := agent.contractAddress
              currentValue := toString currentValue
              expectedNewValue := none
              newValue := none
              userAddress := userAddress
              txData := none } }

/-- Embedding of `handleIncrement` (`agent.ts`, lines 140-185).  The external
`encodeFunctionData` result for `increment()` is the `encodeIncrement`
argument; the transaction value is the literal `'0x0'`. -/
def handleIncrement (agent : CounterAgent) (readNumber : Except String Nat)
    (encodeIncrement : String) (taskId userAddress : String) :
    Except String CounterAgentResponse :=
  match readNumber with
  | .error e => .error ("Failed to prepare increment transaction: " ++ e)
  | .ok currentValue =>
    .ok { id := taskId
          state := "completed"
          parts := ["Ready to increment counter from " ++ toString currentValue ++
            " to " ++ toString (currentValue + 1) ++
            ". Please confirm the transaction in MetaMask."]
          metadata := some
            { operation := "increment"
              contractAddress := agent.contractAddress
              currentValue := toString currentValue
              expectedNewValue := some (toString (currentValue + 1))
              newValue := none
              userAddress := userAddress
              txData := some { toAddr := agent.contractAddress
                               data := encodeIncrement
                               value := "0x0" } } }

/-- Embedding of `handleSet` (`agent.ts`, lines 187-233); `encodeSet` stands
for the external `encodeFunctionData` applied to `setNumber(newValue)`. -/
def handleSet (agent : CounterAgent) (readNumber : Except String Nat)
    (encodeSet : Nat → String) (taskId userAddress : String) (newValue : Nat) :
    Except String CounterAgentResponse :=
  match readNumber with
  | .error e => .error ("Failed to prepare set transaction: " ++ e)
  | .ok currentValue =>
    .ok { id := taskId
          state := "completed"
          parts := ["Ready to set counter from " ++ toString currentValue ++
            " to " ++ toString newValue ++
            ". Please confirm the transaction in MetaMask."]
          metadata := some
            { operation := "set"
              contractAddress := agent.contractAddress
              currentValue := toString currentValue
              expectedNewValue := none
              newValue := some (toString newValue)
              userAddress := userAddress
              txData := some { toAddr := agent.contractAddress
                               data := encodeSet newValue
                               value := "0x0" } } }

/-- Embedding of `createErrorTask` (`agent.ts`, lines 235-251): a failed task
whose single message part is the error message behind the `Error: ` marker. -/
def createErrorTask (taskId errorMessage : String) : CounterAgentResponse :=
  { id := taskId
    state := "failed"
    parts := ["Error: " ++ errorMessage]
    metadata := none }

/-- Body of the `try` block of `processUserInput` (`agent.ts`, lines 40-58):
parse the instruction, then dispatch; every throw is an `Except.error`. -/
def processUserInputE (agent : CounterAgent) (readNumber : Except String Nat)
    (encodeIncrement : String) (encodeSet : Nat → String)
    (taskId instruction userAddress : String) :
    Except String CounterAgentResponse :=
  match parseInstruction instruction with
  | .error e => .error e
  | .ok operation =>
    match operation with
    | .read => handleRead agent readNumber taskId userAddress
    | .increment => handleIncrement agent readNumber encodeIncrement taskId userAddress
    | .set none => .error "Value is required for set operation"
    | .set (some v) => handleSet agent readNumber encodeSet taskId userAddress v

/-- Embedding of `processUserInput` (`agent.ts`, lines 39-66): the whole body
runs inside a `try`; on any error `createErrorTask` wraps the message.  The
two generated task ids (timestamp plus randomness in the source) appear as
the parameters `taskId` and `errorTaskId`. -/
def processUserInput (agent : CounterAgent) (readNumber : Except String Nat)
    (encodeIncrement : String) (encodeSet : Nat → String)
    (taskId errorTaskId instruction userAddress : String) : CounterAgentResponse :=
  match processUserInputE agent readNumber encodeIncrement encodeSet
      taskId instruction userAddress with
  | .ok task => task
  | .error msg => createErrorTask errorTaskId msg

example : parseInstruction "Set counter to 42" = .ok (.set (some 42)) := rfl

example : parseInstruction "set it please" =
    .error "Please specify a number to set the counter to, e.g., \"Set counter to 42\"" := rfl

example : parseInstruction "increment the counter" = .ok .increment := rfl

example : parseInstruction "zzz" = .ok .read := rfl

example :
    (processUserInput ⟨"rpc", "0xC"⟩ (.ok 7) "0xinc" (fun _ => "0xset")
      "t1" "e1" "set it please" "0xU").state = "failed" := rfl

/-- Modelled from the spec: per-step status of the `useTransactionExecutor`
orchestrator, whose source file is absent from the snapshot (§3 of the spec):
idle, pending, success, or error with a reason. -/
inductive StepStatus where
  | idle
  | pending
  | success
  | error (reason : String)
deriving DecidableEq, Repr

/-- Modelled from the spec: the `ExecutionState` of one executor instance
together with the connection snapshot its gates are derived from (§3, §4.1):
the attached plan, connection flag, current chain, the per-approval-step
statuses, the 0-based approval cursor, and the main step's status. -/
structure ExecConfig where
  txPlan : Option TxPlan
  isConnected : Bool
  currentChainId : Option Int
  approvalStatus : List StepStatus
  approvalIndex : Nat
  mainStatus : StepStatus
deriving DecidableEq, Repr

/-- Modelled from the spec: `totalApprovals = max(0, plan.length − 1)`,
fixed for the plan's lifetime (§3); `Nat` subtraction is truncated. -/
def totalApprovalsOf (plan : Option TxPlan) : Nat :=
  match plan with
  | none => 0
  | some p => p.length - 1

/-- Total approvals of the attached plan. -/
def totalApprovals (c : ExecConfig) : Nat :=
  totalApprovalsOf c.txPlan

/-- Modelled from the spec: a plan counts as present for the gates when it is
non-null and has at least one step — a zero-step plan means "nothing to
execute" and "must never be submitted" (§3), and Scenario A keeps
`canExecute` false for the empty plan (§8). -/
def planPresent (c : ExecConfig) : Bool :=
  match c.txPlan with
  | some p => decide (0 < p.length)
  | none => false

/-- Status test for `pending`. -/
def isPendingStatus : StepStatus → Bool
  | .pending => true
  | _ => false

/-- Status test for `success`. -/
def isSuccessStatus : StepStatus → Bool
  | .success => true
  | _ => false

/-- Modelled from the spec: no step across the whole plan is pending. -/
def noPendingStep (c : ExecConfig) : Bool :=
  c.approvalStatus.all (fun s => !isPendingStatus s) && !isPendingStatus c.mainStatus

/-- Modelled from the spec: `isApprovalPhaseComplete` is
`approvalIndex == totalApprovals` (§4.1). -/
def isApprovalPhaseComplete (c : ExecConfig) : Bool :=
  c.approvalIndex == totalApprovals c

/-- Modelled from the spec: `canApprove` — connected, plan present, approval
phase incomplete, and no step currently pending (§4.1). -/
def canApprove (c : ExecConfig) : Bool :=
  c.isConnected && planPresent c && !isApprovalPhaseComplete c && noPendingStep c

/-- Modelled from the spec: `canExecute` — connected, plan present, approval
phase complete, and the main status neither pending nor success (§4.1). -/
def canExecute (c : ExecConfig) : Bool :=
  c.isConnected && planPresent c && isApprovalPhaseComplete c &&
    !isPendingStatus c.mainStatus && !isSuccessStatus c.mainStatus

/-- The approval step at the cursor; steps before the last are the approval
steps (§3), and the cursor stays below `totalApprovals = length − 1`. -/
def approvalStep (c : ExecConfig) : Option TxStep :=
  match c.txPlan with
  | some p => p.get? c.approvalIndex
  | none => none

/-- The main step: the last step of the plan (§3). -/
def mainStep (c : ExecConfig) : Option TxStep :=
  match c.txPlan with
  | some p => p.getLast?
  | none => none

/-- A wallet-gateway call observed during one command invocation (§6). -/
inductive WalletCall where
  | switchChain (chainId : Int)
  | sendTransaction (step : TxStep)
deriving DecidableEq, Repr

/-- Mark the approval step at the cursor pending (§4.1(b)). -/
def setApprovalPending (c : ExecConfig) : ExecConfig :=
  { c with approvalStatus := c.approvalStatus.set c.approvalIndex .pending }

/-- Mark the approval step at the cursor as failed with a reason. -/
def setApprovalError (c : ExecConfig) (reason : String) : ExecConfig :=
  { c with approvalStatus := c.approvalStatus.set c.approvalIndex (.error reason) }

/-- Modelled from the spec: resolution of the in-flight approval (§4.1(d)):
on confirmation the step becomes success and the cursor advances; on failure
it becomes error and the cursor stays (retryable). -/
def resolveApproval (c : ExecConfig) (send : Except String Unit) : ExecConfig :=
  match send with
  | .ok _ =>
    { c with approvalStatus := c.approvalStatus.set c.approvalIndex .success
             approvalIndex := c.approvalIndex + 1 }
  | .error r => setApprovalError c r

/-- Modelled from the spec: resolution of the in-flight main transaction. -/
def resolveMain (c : ExecConfig) (send : Except String Unit) : ExecConfig :=
  match send with
  | .ok _ => { c with mainStatus := .success }
  | .error r => { c with mainStatus := .error r }

/-- Modelled from the spec: one full `approveNext()` invocation (§4.1),
parameterised by the external outcomes — `switchOk` is whether a required
chain switch resolves, `send` is the wallet/confirmation outcome.  It returns
the wallet calls issued, in order, and the final state.  With `!canApprove`
the command "fails silently (no-op)"; a rejected chain switch sets the step
to `error(chain-switch-failed)` and returns without sending. -/
def approveNextRun (c : ExecConfig) (switchOk : Bool)
    (send : Except String Unit) : List WalletCall × ExecConfig :=
  if canApprove c then
    match approvalStep c with
    | none => ([], c)
    | some st =>
      if c.currentChainId = some st.chainId then
        ([.sendTransaction st], resolveApproval (setApprovalPending c) send)
      else if switchOk then
        ([.switchChain st.chainId, .sendTransaction st],
          resolveApproval
            (setApprovalPending { c with currentChainId := some st.chainId }) send)
      else
        ([.switchChain st.chainId], setApprovalError c "chain-switch-failed")
  else ([], c)

/-- Modelled from the spec: one full `executeMain()` invocation, following
the same chain-switch-then-submit sequence against the main step (§4.1). -/
def executeMainRun (c : ExecConfig) (switchOk : Bool)
    (send : Except String Unit) : List WalletCall × ExecConfig :=
  if canExecute c then
    match mainStep c with
    | none => ([], c)
    | some st =>
      if c.currentChainId = some st.chainId then
        ([.sendTransaction st], resolveMain { c with mainStatus := .pending } send)
      else if switchOk then
        ([.switchChain st.chainId, .sendTransaction st],
          resolveMain
            { c with currentChainId := some st.chainId, mainStatus := .pending } send)
      else
        ([.switchChain st.chainId], { c with mainStatus := .error "chain-switch-failed" })
  else ([], c)

/-- Modelled from the spec: the observable small-step transitions of one
executor instance (§4.1, §5).  Each suspension point — a chain switch, or a
wallet signature awaited through confirmation — is one transition, so the
intermediate `pending` states are observable; the connection flag and the
wallet's chain may also change asynchronously underneath the executor. -/
inductive ExecStep : ExecConfig → ExecConfig → Prop where
  | approveBegin (c : ExecConfig) (st : TxStep) (hg : canApprove c = true)
      (hst : approvalStep c = some st) (hc : c.currentChainId = some st.chainId) :
      ExecStep c (setApprovalPending c)
  | approveSwitchOk (c : ExecConfig) (st : TxStep) (hg : canApprove c = true)
      (hst : approvalStep c = some st) (hc : c.currentChainId ≠ some st.chainId) :
      ExecStep c (setApprovalPending { c with currentChainId := some st.chainId })
  | approveSwitchFail (c : ExecConfig) (st : TxStep) (hg : canApprove c = true)
      (hst : approvalStep c = some st) (hc : c.currentChainId ≠ some st.chainId) :
      ExecStep c (setApprovalError c "chain-switch-failed")
  | approveDone (c : ExecConfig) (send : Except String Unit)
      (hp : c.approvalStatus[c.approvalIndex]? = some .pending) :
      ExecStep c (resolveApproval c send)
  | execBegin (c : ExecConfig) (st : TxStep) (hg : canExecute c = true)
      (hst : mainStep c = some st) (hc : c.currentChainId = some st.chainId) :
      ExecStep c { c with mainStatus := .pending }
  | execSwitchOk (c : ExecConfig) (st : TxStep) (hg : canExecute c = true)
      (hst : mainStep c = some st) (hc : c.currentChainId ≠ some st.chainId) :
      ExecStep c { c with currentChainId := some st.chainId, mainStatus := .pending }
  | execSwitchFail (c : ExecConfig) (st : TxStep) (hg : canExecute c = true)
      (hst : mainStep c = some st) (hc : c.currentChainId ≠ some st.chainId) :
      ExecStep c { c with mainStatus := .error "chain-switch-failed" }
  | execDone (c : ExecConfig) (send : Except String Unit)
      (hp : c.mainStatus = .pending) :
      ExecStep c (resolveMain c send)
  | connChange (c : ExecConfig) (b : Bool) :
      ExecStep c { c with isConnected := b }
  | chainChange (c : ExecConfig) (cid : Option Int) :
      ExecStep c { c with currentChainId := cid }

/-- Modelled from the spec: the fresh `ExecutionState` created when a plan
is first attached (§3): cursor 0 and every status idle. -/
def initConfig (plan : Option TxPlan) (conn : Bool) (chain : Option Int) :
    ExecConfig :=
  { txPlan := plan
    isConnected := conn
    currentChainId := chain
    approvalStatus := List.replicate (totalApprovalsOf plan) .idle
    approvalIndex := 0
    mainStatus := .idle }

/-- States one executor instance can reach from the fresh state for a plan. -/
def ExecReach (plan : Option TxPlan) (conn : Bool) (chain : Option Int)
    (c : ExecConfig) : Prop :=
  Relation.ReflTransGen ExecStep (initConfig plan conn chain) c

/-- Structural invariant of reachable executor states: statuses cover the
approval steps, the cursor never exceeds `totalApprovals`, every step behind
the cursor succeeded, only the step at the cursor can be pending, and the
main step is never pending at the same time as an approval step. -/
structure ExecInv (c : ExecConfig) : Prop where
  lenEq : c.approvalStatus.length = totalApprovals c
  idxLe : c.approvalIndex ≤ totalApprovals c
  doneSucc : ∀ i, i < c.approvalIndex → c.approvalStatus[i]? = some .success
  pendAt : ∀ i, c.approvalStatus[i]? = some .pending → i = c.approvalIndex
  mainExcl : c.mainStatus = .pending →
    ∀ i : Nat, c.approvalStatus[i]? ≠ some StepStatus.pending

theorem isPendingStatus_false_iff (s : StepStatus) :
    isPendingStatus s = false ↔ s ≠ .pending := by
  cases s <;> simp [isPendingStatus]

theorem isSuccessStatus_false_iff (s : StepStatus) :
    isSuccessStatus s = false ↔ s ≠ .success := by
  cases s <;> simp [isSuccessStatus]

theorem canApprove_parts {c : ExecConfig} (h : canApprove c = true) :
    c.isConnected = true ∧ planPresent c = true ∧
      c.approvalIndex ≠ totalApprovals c ∧
      (∀ i : Nat, c.approvalStatus[i]? ≠ some StepStatus.pending) ∧
      c.mainStatus ≠ .pending := by
  simp only [canApprove, noPendingStep, Bool.and_eq_true, Bool.not_eq_true',
    List.all_eq_true] at h
  obtain ⟨⟨⟨h1, h2⟩, h3⟩, h4, h5⟩ := h
  refine ⟨h1, h2, ?_, ?_, (isPendingStatus_false_iff _).mp h5⟩
  · intro he
    rw [isApprovalPhaseComplete] at h3
    simp [he] at h3
  · intro i hi
    have := (isPendingStatus_false_iff _).mp
      (by simpa using h4 _ (List.getElem?_mem hi))
    exact this rfl

theorem canExecute_parts {c : ExecConfig} (h : canExecute c = true) :
    c.isConnected = true ∧ planPresent c = true ∧
      c.approvalIndex = totalApprovals c ∧
      c.mainStatus ≠ .pending ∧ c.mainStatus ≠ .success := by
  simp only [canExecute, Bool.and_eq_true, Bool.not_eq_true'] at h
  obtain ⟨⟨⟨⟨h1, h2⟩, h3⟩, h4⟩, h5⟩ := h
  refine ⟨h1, h2, ?_, (isPendingStatus_false_iff _).mp h4,
    (isSuccessStatus_false_iff _).mp h5⟩
  rw [isApprovalPhaseComplete] at h3
  simpa using h3

theorem execInv_init (plan : Option TxPlan) (conn : Bool) (chain : Option Int) :
    ExecInv (initConfig plan conn chain) := by
  refine ⟨?_, ?_, ?_, ?_, ?_⟩
  · simp [initConfig, totalApprovals]
  · exact Nat.zero_le _
  · intro i hi; exact absurd hi (Nat.not_lt_zero i)
  · intro i hp
    have := List.eq_of_mem_replicate (List.getElem?_mem hp)
    exact absurd this (by simp)
  · intro hm; exact absurd hm (by simp [initConfig])

theorem execInv_connChange {c : ExecConfig} (hv : ExecInv c) (b : Bool) :
    ExecInv { c with isConnected := b } :=
  ⟨hv.lenEq, hv.idxLe, hv.doneSucc, hv.pendAt, hv.mainExcl⟩

theorem execInv_chainChange {c : ExecConfig} (hv : ExecInv c) (cid : Option Int) :
    ExecInv { c with currentChainId := cid } :=
  ⟨hv.lenEq, hv.idxLe, hv.doneSucc, hv.pendAt, hv.mainExcl⟩

theorem execInv_setApprovalPending {c : ExecConfig} (hv : ExecInv c)
    (hg : canApprove c = true) : ExecInv (setApprovalPending c) := by
  obtain ⟨-, -, hne, hnp, hmp⟩ := canApprove_parts hg
  refine ⟨?_, ?_, ?_, ?_, ?_⟩
  · simpa [setApprovalPending, totalApprovals] using hv.lenEq
  · exact hv.idxLe
  · intro i hi
    have hi2 : i < c.approvalIndex := hi
    show (c.approvalStatus.set c.approvalIndex .pending)[i]? = some .success
    rw [List.getElem?_set_ne (Nat.ne_of_gt hi2)]
    exact hv.doneSucc i hi2
  · intro i hp
    show i = c.approvalIndex
    by_cases hii : i = c.approvalIndex
    · exact hii
    · have hp2 : (c.approvalStatus.set c.approvalIndex .pending)[i]? =
          some .pending := hp
      rw [List.getElem?_set_ne (fun h => hii h.symm)] at hp2
      exact absurd hp2 (hnp i)
  · intro hm
    exact absurd hm hmp

theorem execInv_setApprovalError {c : ExecConfig} (hv : ExecInv c)
    (hg : canApprove c = true) (r : String) : ExecInv (setApprovalError c r) := by
  obtain ⟨-, -, hne, hnp, hmp⟩ := canApprove_parts hg
  refine ⟨?_, ?_, ?_, ?_, ?_⟩
  · simpa [setApprovalError, totalApprovals] using hv.lenEq
  · exact hv.idxLe
  · intro i hi
    have hi2 : i < c.approvalIndex := hi
    show (c.approvalStatus.set c.approvalIndex (.error r))[i]? = some .success
    rw [List.getElem?_set_ne (Nat.ne_of_gt hi2)]
    exact hv.doneSucc i hi2
  · intro i hp
    show i = c.approvalIndex
    by_cases hii : i = c.approvalIndex
    · exact hii
    · have hp2 : (c.approvalStatus.set c.approvalIndex (.error r))[i]? =
          some .pending := hp
      rw [List.getElem?_set_ne (fun h => hii h.symm)] at hp2
      exact absurd hp2 (hnp i)
  · intro hm
    exact absurd hm hmp

theorem execInv_resolveApproval {c : ExecConfig} (hv : ExecInv c)
    (hp : c.approvalStatus[c.approvalIndex]? = some .pending)
    (send : Except String Unit) : ExecInv (resolveApproval c send) := by
  have hlt : c.approvalIndex < c.approvalStatus.length := by
    rcases List.getElem?_eq_some.mp hp with ⟨h, -⟩
    exact h
  have hltTot : c.approvalIndex < totalApprovals c := hv.lenEq ▸ hlt
  have hmnp : c.mainStatus ≠ .pending := fun hm =>
    hv.mainExcl hm c.approvalIndex hp
  cases send with
  | ok u =>
    refine ⟨?_, ?_, ?_, ?_, ?_⟩
    · simpa [resolveApproval, totalApprovals] using hv.lenEq
    · simpa [resolveApproval] using hltTot
    · intro i hi
      show (c.approvalStatus.set c.approvalIndex .success)[i]? = some .success
      have hi2 : i < c.approvalIndex + 1 := hi
      by_cases hii : i = c.approvalIndex
      · subst hii
        rw [List.getElem?_set_self', hp]
        rfl
      · rw [List.getElem?_set_ne (fun h => hii h.symm)]
        exact hv.doneSucc i (by omega)
    · intro i hpend
      show i = c.approvalIndex + 1
      have hpend2 : (c.approvalStatus.set c.approvalIndex .success)[i]? =
          some .pending := hpend
      by_cases hii : i = c.approvalIndex
      · subst hii
        rw [List.getElem?_set_self', hp] at hpend2
        exact absurd hpend2 (by simp [Function.const])
      · rw [List.getElem?_set_ne (fun h => hii h.symm)] at hpend2
        exact absurd (hv.pendAt i hpend2) hii
    · intro hm
      exact absurd hm hmnp
  | error r =>
    refine ⟨?_, ?_, ?_, ?_, ?_⟩
    · simpa [resolveApproval, setApprovalError, totalApprovals] using hv.lenEq
    · simpa [resolveApproval, setApprovalError] using hv.idxLe
    · intro i hi
      have hi2 : i < c.approvalIndex := hi
      show (c.approvalStatus.set c.approvalIndex (.error r))[i]? = some .success
      rw [List.getElem?_set_ne (Nat.ne_of_gt hi2)]
      exact hv.doneSucc i hi2
    · intro i hpend
      show i = c.approvalIndex
      have hpend2 : (c.approvalStatus.set c.approvalIndex (.error r))[i]? =
          some .pending := hpend
      by_cases hii : i = c.approvalIndex
      · exact hii
      · rw [List.getElem?_set_ne (fun h => hii h.symm)] at hpend2
        exact hv.pendAt i hpend2
    · intro hm
      exact absurd hm hmnp

theorem execInv_mainPending {c : ExecConfig} (hv : ExecInv c)
    (hg : canExecute c = true) : ExecInv { c with mainStatus := .pending } := by
  obtain ⟨-, -, heq, -, -⟩ := canExecute_parts hg
  refine ⟨hv.lenEq, hv.idxLe, hv.doneSucc, hv.pendAt, ?_⟩
  intro _ i hpend
  have hi := hv.pendAt i hpend
  have hlt : i < c.approvalStatus.length := by
    rcases List.getElem?_eq_some.mp hpend with ⟨h, -⟩
    exact h
  rw [hv.lenEq] at hlt
  omega

theorem execInv_setMain {c : ExecConfig} (hv : ExecInv c) (s : StepStatus)
    (hs : s ≠ .pending) : ExecInv { c with mainStatus := s } := by
  refine ⟨hv.lenEq, hv.idxLe, hv.doneSucc, hv.pendAt, ?_⟩
  intro hm
  exact absurd hm hs

theorem execStep_inv {c c' : ExecConfig} (h : ExecStep c c') (hv : ExecInv c) :
    ExecInv c' := by
  cases h with
  | approveBegin st hg hst hc => exact execInv_setApprovalPending hv hg
  | approveSwitchOk st hg hst hc =>
    exact execInv_setApprovalPending (execInv_chainChange hv _) hg
  | approveSwitchFail st hg hst hc => exact execInv_setApprovalError hv hg _
  | approveDone send hp => exact execInv_resolveApproval hv hp send
  | execBegin st hg hst hc => exact execInv_mainPending hv hg
  | execSwitchOk st hg hst hc =>
    have hv2 := execInv_chainChange hv (some st.chainId)
    have hg2 : canExecute { c with currentChainId := some st.chainId } = true := hg
    exact execInv_mainPending hv2 hg2
  | execSwitchFail st hg hst hc =>
    exact execInv_setMain hv _ (by simp)
  | execDone send hp =>
    cases send with
    | ok u => exact execInv_setMain hv _ (by simp)
    | error r => exact execInv_setMain hv _ (by simp)
  | connChange b => exact execInv_connChange hv b
  | chainChange cid => exact execInv_chainChange hv cid

theorem execReach_inv {plan : Option TxPlan} {conn : Bool} {chain : Option Int}
    {c : ExecConfig} (hr : ExecReach plan conn chain c) : ExecInv c := by
  induction hr with
  | refl => exact execInv_init plan conn chain
  | tail hsteps hstep ih => exact execStep_inv hstep ih

theorem isPendingStatus_true_iff (s : StepStatus) :
    isPendingStatus s = true ↔ s = .pending := by
  cases s <;> simp [isPendingStatus]

/-- Number of pending steps across the whole plan: pending approval steps
plus the main step when it is pending. -/
def pendingCount (c : ExecConfig) : Nat :=
  (c.approvalStatus.filter isPendingStatus).length +
    (if isPendingStatus c.mainStatus then 1 else 0)

theorem filter_length_le_one {α : Type} (p : α → Bool) (l : List α) (k : Nat)
    (h : ∀ i : Nat, ∀ a, l[i]? = some a → p a = true → i = k) :
    (l.filter p).length ≤ 1 := by
  induction l generalizing k with
  | nil => simp
  | cons a t ih =>
    by_cases hpa : p a = true
    · have hk : k = 0 := (h 0 a List.getElem?_cons_zero hpa).symm
      have ht : t.filter p = [] := by
        rw [List.filter_eq_nil_iff]
        intro b hb hpb
        rcases List.mem_iff_getElem?.mp hb with ⟨i, hi⟩
        have := h (i + 1) b (by simpa using hi) hpb
        omega
      simp [List.filter_cons, hpa, ht]
    · have hpa2 : p a = false := by simpa using hpa
      have ht : ∀ i : Nat, ∀ b, t[i]? = some b → p b = true → i = k - 1 := by
        intro i b hb hpb
        have := h (i + 1) b (by simpa using hb) hpb
        omega
      have := ih (k - 1) ht
      simpa [List.filter_cons, hpa2] using this

theorem filter_pending_nil {l : List StepStatus}
    (h : ∀ i : Nat, l[i]? ≠ some StepStatus.pending) :
    l.filter isPendingStatus = [] := by
  rw [List.filter_eq_nil_iff]
  intro a ha hpa
  have heq : a = .pending := (isPendingStatus_true_iff _).mp hpa
  rcases List.mem_iff_getElem?.mp ha with ⟨i, hi⟩
  exact h i (heq ▸ hi)

theorem getElem?_set_self_of_lt {α : Type} (l : List α) (i : Nat) (a : α)
    (h : i < l.length) : (l.set i a)[i]? = some a := by
  rw [List.getElem?_set]
  simp [h]

/-- Demonstration main step on Arbitrum Sepolia. -/
def demoMainStep : TxStep :=
  { toAddr := "0xmain", data := "0x", value := "0x0", chainId := 421614 }

/-- Demonstration approval step on Arbitrum Sepolia. -/
def demoApprovalStep : TxStep :=
  { toAddr := "0xappr", data := "0x01", value := "0x0", chainId := 421614 }

/-- C1: in every reachable state of the spec-modelled executor, `canExecute`
can only be true — and the main step can only step into `pending` — when the
cursor has reached `totalApprovals` and every approval step's status is
`success`; and when `totalApprovals = 0` the gate reduces to the connection
and main-status conditions alone, so the main step may enter `pending`
without any approval. -/
theorem mainPendingRequiresApprovals (plan : Option TxPlan) (conn : Bool)
    (chain : Option Int) (c : ExecConfig) (hr : ExecReach plan conn chain c) :
    (canExecute c = true →
      c.approvalIndex = totalApprovals c ∧
        ∀ i : Nat, i < totalApprovals c →
          c.approvalStatus[i]? = some StepStatus.success) ∧
    (∀ c' : ExecConfig, ExecStep c c' → c.mainStatus ≠ .pending →
      c'.mainStatus = .pending →
      c.approvalIndex = totalApprovals c ∧
        ∀ i : Nat, i < totalApprovals c →
          c.approvalStatus[i]? = some StepStatus.success) ∧
    (totalApprovals c = 0 →
      canExecute c = (c.isConnected && planPresent c &&
        !isPendingStatus c.mainStatus && !isSuccessStatus c.mainStatus)) := by
  have hv := execReach_inv hr
  have key : canExecute c = true →
      c.approvalIndex = totalApprovals c ∧
        ∀ i : Nat, i < totalApprovals c →
          c.approvalStatus[i]? = some StepStatus.success := by
    intro hg
    obtain ⟨-, -, heq, -, -⟩ := canExecute_parts hg
    exact ⟨heq, fun i hi => hv.doneSucc i (heq ▸ hi)⟩
  refine ⟨key, ?_, ?_⟩
  · intro c' hstep hnp hp
    cases hstep with
    | approveBegin st hg hst hc => exact absurd hp hnp
    | approveSwitchOk st hg hst hc => exact absurd hp hnp
    | approveSwitchFail st hg hst hc => exact absurd hp hnp
    | approveDone send hp2 =>
      cases send with
      | ok u => exact absurd hp hnp
      | error r => exact absurd hp hnp
    | execBegin st hg hst hc => exact key hg
    | execSwitchOk st hg hst hc => exact key hg
    | execSwitchFail st hg hst hc => exact absurd hp (by simp)
    | execDone send hp2 =>
      cases send with
      | ok u => exact absurd hp (by simp [resolveMain])
      | error r => exact absurd hp (by simp [resolveMain])
    | connChange b => exact absurd hp hnp
    | chainChange cid => exact absurd hp hnp
  · intro h0
    have hidx : c.approvalIndex = 0 := by
      have := hv.idxLe
      omega
    have hphase : isApprovalPhaseComplete c = true := by
      simp [isApprovalPhaseComplete, hidx, h0]
    simp [canExecute, hphase]

/-- C1 witness: for a fresh single-step plan (zero approvals) on the right
chain with a connected wallet, `canExecute` already holds and the cursor
equals `totalApprovals`. -/
theorem mainPendingRequiresApprovals_w :
    canExecute (initConfig (some [demoMainStep]) true (some 421614)) = true ∧
      (initConfig (some [demoMainStep]) true (some 421614)).approvalIndex =
        totalApprovals (initConfig (some [demoMainStep]) true (some 421614)) :=
  ⟨by decide,
    ((mainPendingRequiresApprovals (some [demoMainStep]) true (some 421614) _
      Relation.ReflTransGen.refl).1 (by decide)).1⟩

/-- C2: in every reachable state of the spec-modelled executor, at most one
step across the whole plan (approval steps and the main step together) has
status `pending`. -/
theorem atMostOnePendingStep (plan : Option TxPlan) (conn : Bool)
    (chain : Option Int) (c : ExecConfig) (hr : ExecReach plan conn chain c) :
    pendingCount c ≤ 1 := by
  have hv := execReach_inv hr
  by_cases hm : isPendingStatus c.mainStatus = true
  · have hmp : c.mainStatus = .pending := (isPendingStatus_true_iff _).mp hm
    have hnil : c.approvalStatus.filter isPendingStatus = [] :=
      filter_pending_nil (hv.mainExcl hmp)
    simp [pendingCount, hnil, hm]
  · have hm2 : isPendingStatus c.mainStatus = false := by simpa using hm
    have hle : (c.approvalStatus.filter isPendingStatus).length ≤ 1 := by
      apply filter_length_le_one _ _ c.approvalIndex
      intro i a hi hpa
      have ha : a = .pending := (isPendingStatus_true_iff _).mp hpa
      exact hv.pendAt i (ha ▸ hi)
    simpa [pendingCount, hm2] using hle

/-- C2 witness: the fresh state of a two-step plan has at most one pending
step. -/
theorem atMostOnePendingStep_w :
    pendingCount (initConfig (some [demoApprovalStep, demoMainStep]) true none)
      ≤ 1 :=
  atMostOnePendingStep _ _ _ _ Relation.ReflTransGen.refl

/-- C3: whenever `approveNext()` or `executeMain()` runs with the wallet on a
chain different from the step's `chainId`, the chain switch is the first
wallet call — before any `sendTransaction` — and if the switch rejects, the
invocation issues no `sendTransaction` at all and the step's status becomes
`error(chain-switch-failed)`. -/
theorem switchChainBeforeSend (c : ExecConfig) (st : TxStep) (switchOk : Bool)
    (send : Except String Unit) :
    (canApprove c = true → approvalStep c = some st →
      c.currentChainId ≠ some st.chainId →
      ((approveNextRun c switchOk send).1.head? =
          some (WalletCall.switchChain st.chainId) ∧
        (switchOk = true →
          (approveNextRun c switchOk send).1 =
            [WalletCall.switchChain st.chainId, WalletCall.sendTransaction st]) ∧
        (switchOk = false →
          (approveNextRun c switchOk send).1 =
            [WalletCall.switchChain st.chainId] ∧
          (approveNextRun c switchOk send).2 =
            setApprovalError c "chain-switch-failed" ∧
          (c.approvalIndex < c.approvalStatus.length →
            (approveNextRun c switchOk send).2.approvalStatus[c.approvalIndex]? =
              some (StepStatus.error "chain-switch-failed"))))) ∧
    (canExecute c = true → mainStep c = some st →
      c.currentChainId ≠ some st.chainId →
      ((executeMainRun c switchOk send).1.head? =
          some (WalletCall.switchChain st.chainId) ∧
        (switchOk = true →
          (executeMainRun c switchOk send).1 =
            [WalletCall.switchChain st.chainId, WalletCall.sendTransaction st]) ∧
        (switchOk = false →
          (executeMainRun c switchOk send).1 =
            [WalletCall.switchChain st.chainId] ∧
          (executeMainRun c switchOk send).2.mainStatus =
            StepStatus.error "chain-switch-failed"))) := by
  constructor
  · intro hg hst hc
    cases switchOk with
    | true =>
      refine ⟨?_, ?_, ?_⟩ <;> simp [approveNextRun, hg, hst, hc]
    | false =>
      refine ⟨?_, ?_, ?_⟩
      · simp [approveNextRun, hg, hst, hc]
      · simp
      · intro _
        refine ⟨?_, ?_, ?_⟩
        · simp [approveNextRun, hg, hst, hc]
        · simp [approveNextRun, hg, hst, hc]
        · intro hlen
          have h2 : (approveNextRun c false send).2 =
              setApprovalError c "chain-switch-failed" := by
            simp [approveNextRun, hg, hst, hc]
          rw [h2, setApprovalError]
          exact getElem?_set_self_of_lt _ _ _ hlen
  · intro hg hst hc
    cases switchOk with
    | true =>
      refine ⟨?_, ?_, ?_⟩ <;> simp [executeMainRun, hg, hst, hc]
    | false =>
      refine ⟨?_, ?_, ?_⟩
      · simp [executeMainRun, hg, hst, hc]
      · simp
      · intro _
        constructor
        · simp [executeMainRun, hg, hst, hc]
        · simp [executeMainRun, hg, hst, hc]

/-- C3 witness: a connected fresh state on chain 1 with a two-step plan
approves through a chain switch that rejects, issuing only the switch call;
a single-step plan executes its main step the same way. -/
theorem switchChainBeforeSend_w :
    (approveNextRun (initConfig (some [demoApprovalStep, demoMainStep]) true
        (some 1)) false (Except.ok ())).1 = [WalletCall.switchChain 421614] ∧
      (executeMainRun (initConfig (some [demoMainStep]) true (some 1)) false
        (Except.ok ())).1 = [WalletCall.switchChain 421614] :=
  ⟨(((switchChainBeforeSend
        (initConfig (some [demoApprovalStep, demoMainStep]) true (some 1))
        demoApprovalStep false (Except.ok ())).1
      (by decide) (by decide) (by decide)).2.2 rfl).1,
    (((switchChainBeforeSend (initConfig (some [demoMainStep]) true (some 1))
        demoMainStep false (Except.ok ())).2
      (by decide) (by decide) (by decide)).2.2 rfl).1⟩

/-- C4: when `canApprove` is false, `approveNext()` is a no-op — it issues no
wallet or chain-switch call and leaves the whole `ExecutionState`
unchanged. -/
theorem approveNextNoOpWhenCannot (c : ExecConfig) (switchOk : Bool)
    (send : Except String Unit) (h : canApprove c = false) :
    approveNextRun c switchOk send = ([], c) := by
  simp [approveNextRun, h]

/-- C4 witness: a disconnected fresh state cannot approve, and invoking
`approveNext()` there returns the state unchanged with no wallet call. -/
theorem approveNextNoOpWhenCannot_w :
    approveNextRun (initConfig (some [demoApprovalStep, demoMainStep]) false
        none) true (Except.ok ()) =
      ([], initConfig (some [demoApprovalStep, demoMainStep]) false none) :=
  approveNextNoOpWhenCannot _ _ _ (by decide)

/-- Demonstration counter response carrying a write operation. -/
def demoCounterWriteResponse : CounterAgentResponse :=
  { id := "t1", state := "completed", parts := ["ok"],
    metadata := some
      { operation := "increment", contractAddress := "0xC",
        currentValue := "1", expectedNewValue := some "2", newValue := none,
        userAddress := "0xU",
        txData := some { toAddr := "0xC", data := "0xd09de08a", value := "0x0" } } }

/-- Demonstration multisig response carrying a write operation. -/
def demoMultisigWriteResponse : MultisigTradeAgentResponse :=
  { id := "t2", state := "completed", parts := ["ok"],
    metadata := some
      { operation := "swap", multisigContractAddress := "0xM",
        userAddress := "0xU", swapDetails := none, originalSwapTx := none,
        owners := none, numConfirmationsRequired := none, txIndex := none,
        isOwner := none, checkAddress := none,
        txData := some { toAddr := "0xM", data := "0xab", value := "0x0" } } }

/-- C5: each extractor returns a non-null `txPlan` exactly when metadata is
present with `txData` and a write operation (`increment`/`set` for the
counter; `swap`/`initialize`/`submitTransaction`/`confirmTransaction`/
`executeTransaction` for the multisig), and then the plan is the one-step
list `{ to, data, value, chainId }` built from `txData`; all read-only or
data-less responses yield a null plan. -/
theorem txPlanExactlyForWriteOps (rc : CounterAgentResponse)
    (rm : MultisigTradeAgentResponse) :
    ((extractCounterTransactionData rc).txPlan ≠ none ↔
      ∃ m, rc.metadata = some m ∧ m.txData ≠ none ∧
        (m.operation = "increment" ∨ m.operation = "set")) ∧
    (∀ m td, rc.metadata = some m → m.txData = some td →
      (m.operation = "increment" ∨ m.operation = "set") →
      (extractCounterTransactionData rc).txPlan =
        some [{ toAddr := td.toAddr, data := td.data, value := td.value,
                chainId := 421614 }]) ∧
    ((extractMultisigTransactionData rm).txPlan ≠ none ↔
      ∃ m, rm.metadata = some m ∧ m.txData ≠ none ∧
        isMultisigWriteOp m.operation = true) ∧
    (∀ m td, rm.metadata = some m → m.txData = some td →
      isMultisigWriteOp m.operation = true →
      (extractMultisigTransactionData rm).txPlan =
        some [{ toAddr := td.toAddr, data := td.data, value := td.value,
                chainId := 421614 }]) := by
  refine ⟨?_, ?_, ?_, ?_⟩
  · cases hmd : rc.metadata with
    | none => simp [extractCounterTransactionData, hmd]
    | some m =>
      cases htd : m.txData with
      | none => simp [extractCounterTransactionData, hmd, htd]
      | some td =>
        by_cases hop : m.operation = "increment" ∨ m.operation = "set"
        · simp [extractCounterTransactionData, hmd, htd, hop]
        · simp [extractCounterTransactionData, hmd, htd, hop]
  · intro m td hm htd hop
    simp [extractCounterTransactionData, hm, htd, hop]
  · cases hmd : rm.metadata with
    | none => simp [extractMultisigTransactionData, hmd]
    | some m =>
      cases htd : m.txData with
      | none => simp [extractMultisigTransactionData, hmd, htd]
      | some td =>
        by_cases hop : isMultisigWriteOp m.operation = true
        · simp [extractMultisigTransactionData, hmd, htd, hop]
        · have hop2 : isMultisigWriteOp m.operation = false := by simpa using hop
          simp [extractMultisigTransactionData, hmd, htd, hop2]
  · intro m td hm htd hop
    simp [extractMultisigTransactionData, hm, htd, hop]

/-- C5 witness: concrete write responses yield their one-step plans. -/
theorem txPlanExactlyForWriteOps_w :
    (extractCounterTransactionData demoCounterWriteResponse).txPlan =
        some [{ toAddr := "0xC", data := "0xd09de08a", value := "0x0",
                chainId := 421614 }] ∧
      (extractMultisigTransactionData demoMultisigWriteResponse).txPlan =
        some [{ toAddr := "0xM", data := "0xab", value := "0x0",
                chainId := 421614 }] :=
  ⟨(txPlanExactlyForWriteOps demoCounterWriteResponse
        demoMultisigWriteResponse).2.1 _ _ rfl rfl (Or.inl rfl),
    (txPlanExactlyForWriteOps demoCounterWriteResponse
        demoMultisigWriteResponse).2.2.2 _ _ rfl rfl (by decide)⟩

/-- C8: every non-null plan either extractor produces is a single step whose
chain id is 421614 (Arbitrum Sepolia), so such a plan has
`max(0, length − 1) = 0` approval steps. -/
theorem extractedPlanSingleton (rc : CounterAgentResponse)
    (rm : MultisigTradeAgentResponse) :
    (∀ p, (extractCounterTransactionData rc).txPlan = some p →
      p.length = 1 ∧ (∀ s ∈ p, s.chainId = 421614) ∧
        totalApprovalsOf (some p) = 0) ∧
    (∀ p, (extractMultisigTransactionData rm).txPlan = some p →
      p.length = 1 ∧ (∀ s ∈ p, s.chainId = 421614) ∧
        totalApprovalsOf (some p) = 0) := by
  constructor
  · intro p hp
    cases hmd : rc.metadata with
    | none => simp [extractCounterTransactionData, hmd] at hp
    | some m =>
      cases htd : m.txData with
      | none => simp [extractCounterTransactionData, hmd, htd] at hp
      | some td =>
        by_cases hop : m.operation = "increment" ∨ m.operation = "set"
        · simp [extractCounterTransactionData, hmd, htd, hop] at hp
          subst hp
          refine ⟨rfl, ?_, rfl⟩
          intro s hs
          simp at hs
          subst hs
          rfl
        · simp [extractCounterTransactionData, hmd, htd, hop] at hp
  · intro p hp
    cases hmd : rm.metadata with
    | none => simp [extractMultisigTransactionData, hmd] at hp
    | some m =>
      cases htd : m.txData with
      | none => simp [extractMultisigTransactionData, hmd, htd] at hp
      | some td =>
        by_cases hop : isMultisigWriteOp m.operation = true
        · simp [extractMultisigTransactionData, hmd, htd, hop] at hp
          subst hp
          refine ⟨rfl, ?_, rfl⟩
          intro s hs
          simp at hs
          subst hs
          rfl
        · have hop2 : isMultisigWriteOp m.operation = false := by simpa using hop
          simp [extractMultisigTransactionData, hmd, htd, hop2] at hp

/-- The one step of the demo counter write response's plan. -/
def demoCounterPlanStep : TxStep :=
  { toAddr := "0xC", data := "0xd09de08a", value := "0x0", chainId := 421614 }

/-- The one step of the demo multisig write response's plan. -/
def demoMultisigPlanStep : TxStep :=
  { toAddr := "0xM", data := "0xab", value := "0x0", chainId := 421614 }

/-- C8 witness: the demo write responses produce singleton plans on chain
421614 with zero approvals. -/
theorem extractedPlanSingleton_w :
    ([demoCounterPlanStep] : TxPlan).length = 1 ∧
      totalApprovalsOf (some ([demoMultisigPlanStep] : TxPlan)) = 0 :=
  ⟨((extractedPlanSingleton demoCounterWriteResponse
      demoMultisigWriteResponse).1 _ rfl).1,
    ((extractedPlanSingleton demoCounterWriteResponse
      demoMultisigWriteResponse).2 _ rfl).2.2⟩

/-- C9: with the metadata field absent, each extractor returns both
components null. -/
theorem extractNoMetadataNull (rc : CounterAgentResponse)
    (rm : MultisigTradeAgentResponse) :
    (rc.metadata = none →
      extractCounterTransactionData rc = { txPreview := none, txPlan := none }) ∧
    (rm.metadata = none →
      extractMultisigTransactionData rm =
        { txPreview := none, txPlan := none }) := by
  constructor
  · intro h
    simp [extractCounterTransactionData, h]
  · intro h
    simp [extractMultisigTransactionData, h]

/-- Demonstration counter response with no metadata. -/
def demoBareCounterResponse : CounterAgentResponse :=
  { id := "t3", state := "failed", parts := ["Error: x"], metadata := none }

/-- Demonstration multisig response with no metadata. -/
def demoBareMultisigResponse : MultisigTradeAgentResponse :=
  { id := "t4", state := "failed", parts := ["Error: y"], metadata := none }

/-- C9 witness: concrete metadata-less responses map to the all-null
extract result. -/
theorem extractNoMetadataNull_w :
    extractCounterTransactionData demoBareCounterResponse =
        { txPreview := none, txPlan := none } ∧
      extractMultisigTransactionData demoBareMultisigResponse =
        { txPreview := none, txPlan := none } :=
  ⟨(extractNoMetadataNull demoBareCounterResponse demoBareMultisigResponse).1
      rfl,
    (extractNoMetadataNull demoBareCounterResponse demoBareMultisigResponse).2
      rfl⟩

/-- C7: the chatbot Sign Transaction control is shown exactly when the plan
is non-null and non-empty, so neither a null nor an empty plan offers a
signing action; and the spec-modelled executor's `canExecute` is false for
the attached empty plan, so a zero-step plan is never submitted there
either. -/
theorem emptyPlanNeverSubmitted (hasPreview : Bool) (txPlan : Option TxPlan)
    (conn : Bool) (chain : Option Int) :
    (chatbotSignButtonShown hasPreview txPlan = true ↔
      ∃ p, txPlan = some p ∧ 0 < p.length) ∧
    chatbotSignButtonShown hasPreview (some []) = false ∧
    chatbotSignButtonShown hasPreview none = false ∧
    canExecute (initConfig (some []) conn chain) = false := by
  refine ⟨?_, ?_, ?_, ?_⟩
  · cases txPlan with
    | none => simp [chatbotSignButtonShown]
    | some p => cases hasPreview <;> simp [chatbotSignButtonShown]
  · cases hasPreview <;> simp [chatbotSignButtonShown]
  · cases hasPreview <;> simp [chatbotSignButtonShown]
  · simp [canExecute, planPresent, initConfig]

/-- A plan step with a value field that is not a wei numeral. -/
def badValueStep : TxStep :=
  { toAddr := "0xC", data := "0xd09de08a", value := "-1", chainId := 421614 }

/-- A syntactically valid counter write response whose `txData.value` is the
string `"-1"`. -/
def badValueCounterResponse : CounterAgentResponse :=
  { id := "bad", state := "completed", parts := ["ok"],
    metadata := some
      { operation := "increment", contractAddress := "0xC",
        currentValue := "1", expectedNewValue := some "2", newValue := none,
        userAddress := "0xU",
        txData := some { toAddr := "0xC", data := "0xd09de08a", value := "-1" } } }

/-- C6 counterexample: the extractors perform no validation of `value` — a
response whose `metadata.txData.value` is `"-1"` yields a plan step whose
value is not a non-negative wei integer, so not every generated step's value
is a non-negative integer. -/
theorem txStepValueNotValidated_cex :
    ¬ (∀ (r : CounterAgentResponse) (p : TxPlan),
        (extractCounterTransactionData r).txPlan = some p →
          ∀ s ∈ p, isWeiNat s.value = true) := by
  intro h
  have hbad := h badValueCounterResponse [badValueStep] rfl badValueStep
    (by simp)
  exact absurd hbad (by decide)

/-- C6 (amended): each extractor copies `metadata.txData.value` into the
generated step verbatim and unvalidated; the counter agent's transaction
handlers only ever emit `value = '0x0'`, which is a non-negative wei
integer, so plans extracted from agent-produced responses satisfy the
`value ≥ 0` data-model constraint. -/
theorem txStepValueVerbatimAndAgentZero :
    (∀ (r : CounterAgentResponse) (m : CounterMetadata) (td : RawTxData)
        (p : TxPlan),
      r.metadata = some m → m.txData = some td →
      (extractCounterTransactionData r).txPlan = some p →
      ∀ s ∈ p, s.value = td.value) ∧
    (∀ (r : MultisigTradeAgentResponse) (m : MultisigMetadata)
        (td : RawTxData) (p : TxPlan),
      r.metadata = some m → m.txData = some td →
      (extractMultisigTransactionData r).txPlan = some p →
      ∀ s ∈ p, s.value = td.value) ∧
    (∀ (agent : CounterAgent) (readNumber : Except String Nat)
        (encodeIncrement : String) (encodeSet : Nat → String)
        (taskId errorTaskId instruction userAddress : String)
        (m : CounterMetadata) (td : RawTxData),
      (processUserInput agent readNumber encodeIncrement encodeSet taskId
          errorTaskId instruction userAddress).metadata = some m →
      m.txData = some td → td.value = "0x0") ∧
    isWeiNat "0x0" = true := by
  refine ⟨?_, ?_, ?_, by decide⟩
  · intro r m td p hm htd hp s hs
    by_cases hop : m.operation = "increment" ∨ m.operation = "set"
    · simp [extractCounterTransactionData, hm, htd, hop] at hp
      subst hp
      simp at hs
      subst hs
      rfl
    · simp [extractCounterTransactionData, hm, htd, hop] at hp
  · intro r m td p hm htd hp s hs
    by_cases hop : isMultisigWriteOp m.operation = true
    · simp [extractMultisigTransactionData, hm, htd, hop] at hp
      subst hp
      simp at hs
      subst hs
      rfl
    · have hop2 : isMultisigWriteOp m.operation = false := by simpa using hop
      simp [extractMultisigTransactionData, hm, htd, hop2] at hp
  · intro agent readNumber encodeIncrement encodeSet taskId errorTaskId
      instruction userAddress m td hm htd
    unfold processUserInput processUserInputE at hm
    cases hpi : parseInstruction instruction with
    | error e =>
      rw [hpi] at hm
      simp [createErrorTask] at hm
    | ok op =>
      rw [hpi] at hm
      cases op with
      | read =>
        cases readNumber with
        | error e => simp [handleRead, createErrorTask] at hm
        | ok n =>
          simp [handleRead] at hm
          subst hm
          simp at htd
      | increment =>
        cases readNumber with
        | error e => simp [handleIncrement, createErrorTask] at hm
        | ok n =>
          simp [handleIncrement] at hm
          subst hm
          simp at htd
          subst htd
          rfl
      | set v =>
        cases v with
        | none => simp [createErrorTask] at hm
        | some k =>
          cases readNumber with
          | error e => simp [handleSet, createErrorTask] at hm
          | ok n =>
            simp [handleSet] at hm
            subst hm
            simp at htd
            subst htd
            rfl

/-- C6 witness: the demo write responses carry `value = '0x0'` into their
plan steps, and `'0x0'` denotes a non-negative wei integer. -/
theorem txStepValueVerbatimAndAgentZero_w :
    demoCounterPlanStep.value = "0x0" ∧ demoMultisigPlanStep.value = "0x0" ∧
      isWeiNat "0x0" = true :=
  ⟨txStepValueVerbatimAndAgentZero.1 demoCounterWriteResponse _ _ _ rfl rfl rfl
      demoCounterPlanStep (List.mem_singleton.mpr rfl),
    txStepValueVerbatimAndAgentZero.2.1 demoMultisigWriteResponse _ _ _ rfl rfl
      rfl demoMultisigPlanStep (List.mem_singleton.mpr rfl),
    txStepValueVerbatimAndAgentZero.2.2.2⟩

/-- C10: `processUserInput` never lets an error escape — for every chain-read
outcome, instruction and address, the returned task either has state
`completed`, or has state `failed` with a single message part that starts
with `Error: `. -/
theorem processUserInputTotalShape (agent : CounterAgent)
    (readNumber : Except String Nat) (encodeIncrement : String)
    (encodeSet : Nat → String)
    (taskId errorTaskId instruction userAddress : String) :
    (processUserInput agent readNumber encodeIncrement encodeSet taskId
        errorTaskId instruction userAddress).state = "completed" ∨
      ((processUserInput agent readNumber encodeIncrement encodeSet taskId
          errorTaskId instruction userAddress).state = "failed" ∧
        ∃ rest, (processUserInput agent readNumber encodeIncrement encodeSet
            taskId errorTaskId instruction userAddress).parts =
          ["Error: " ++ rest]) := by
  unfold processUserInput processUserInputE
  cases hpi : parseInstruction instruction with
  | error e => exact Or.inr ⟨rfl, e, rfl⟩
  | ok op =>
    cases op with
    | read =>
      cases readNumber with
      | ok n => exact Or.inl rfl
      | error e =>
        exact Or.inr ⟨rfl, "Failed to read counter value: " ++ e, rfl⟩
    | increment =>
      cases readNumber with
      | ok n => exact Or.inl rfl
      | error e =>
        exact Or.inr ⟨rfl, "Failed to prepare increment transaction: " ++ e, rfl⟩
    | set v =>
      cases v with
      | none => exact Or.inr ⟨rfl, "Value is required for set operation", rfl⟩
      | some k =>
        cases readNumber with
        | ok n => exact Or.inl rfl
        | error e =>
          exact Or.inr ⟨rfl, "Failed to prepare set transaction: " ++ e, rfl⟩

end Vibekit
